import Mathlib

/-!
# Workflow state / task-dependency engine: shallow embedding

This file embeds the workflow subsystem of the case-management backend
(`workflow/models.py`, `workflow/serializers.py`, `workflow/views.py`) as
executable Lean definitions, and proves properties of the engine's
operations: state transitions, the task dependency graph, readiness
computation, and the completion cascade.

Conventions of the embedding:
* database rows are Lean structures; foreign keys to reference data
  (departments, workflow states) are embedded records compared by `id`,
  matching the ORM's primary-key equality;
* timestamps are abstract `Nat` instants; the caller passes `now`;
* the many-to-many `depende_de` relation of `Task` is a list of
  `(task id, depends-on id)` pairs (the ORM's auto join table), kept
  separate from the explicit `TaskDependency` row table, exactly as in
  the source schema;
* notification side effects are recorded as `(user, type)` entries;
  display strings of notifications are elided;
* fallible endpoints return `Except`; a failed call leaves the state
  unchanged (the source validates before mutating, inside a transaction).
-/

deriving instance DecidableEq for Except

set_option maxRecDepth 4096

namespace MopcWorkflow

/-- Coarse expediente status, the `EXPEDIENTE_STATES` choices of
`Expediente.estado_actual` in `workflow/models.py`. -/
inductive EstadoExp where
  | iniciado
  | en_revision
  | aprobado
  | rechazado
  | completado
  | en_apelacion
deriving DecidableEq, Repr

/-- Task status, the `TASK_STATUS` choices of `Task.estado`. -/
inductive TaskStatus where
  | pendiente
  | en_progreso
  | completada
  | cancelada
  | bloqueada
deriving DecidableEq, Repr

/-- `core.models.Department`: reference data with an ordinal position in
the linear pipeline (`workflow_order`). -/
structure Department where
  id : Nat
  code : String
  name : String
  workflow_order : Nat
  is_active : Bool
  response_time_hours : Nat
deriving DecidableEq, Repr

/-- `core.models.WorkflowState`: an ordered, named state with an
`is_final` flag. -/
structure WorkflowState where
  id : Nat
  name : String
  order : Nat
  is_final : Bool
deriving DecidableEq, Repr

/-- `core.models.User`, reduced to the fields the workflow engine reads. -/
structure UserRec where
  id : Nat
  department : Nat
  is_active : Bool
deriving DecidableEq, Repr

/-- `workflow.models.Expediente`, reduced to the fields the engine reads
and mutates. -/
structure Expediente where
  id : Nat
  numero_expediente : String
  estado_actual : EstadoExp
  departamento_actual : Department
  estado_workflow : WorkflowState
  creado_por : Nat
  fecha_completado : Option Nat
deriving DecidableEq, Repr

/-- `workflow.models.WorkflowTransition`: an immutable audit record. -/
structure TransitionRec where
  expediente : Nat
  desde_estado : Option WorkflowState
  hacia_estado : WorkflowState
  desde_departamento : Option Department
  hacia_departamento : Option Department
  usuario : Nat
  comentarios : String
  motivo_rechazo : String
deriving DecidableEq, Repr

/-- `workflow.models.Task`, reduced to the fields the engine reads and
mutates. -/
structure Task where
  id : Nat
  expediente : Nat
  departamento : Department
  usuario_asignado : Option Nat
  titulo : String
  descripcion : String
  tipo : String
  prioridad : String
  estado : TaskStatus
  fecha_vencimiento : Option Nat
  fecha_completacion : Option Nat
  resultado : String
deriving DecidableEq, Repr

/-- `workflow.models.TaskDependency`: an explicit edge row, distinct
from the `depende_de` join table. -/
structure TaskDep where
  task : Nat
  depends_on : Nat
  dependency_type : String
deriving DecidableEq, Repr

/-- A recorded notification side effect (`core.models.Notification`,
reduced to recipient and type). -/
structure Notification where
  user : Nat
  ntype : String
deriving DecidableEq, Repr

/-- The persisted state the engine operates on: one expediente together
with its tasks, both dependency stores, the transition log, the recorded
notifications, and the read-only reference data. -/
structure WFState where
  expediente : Expediente
  tasks : List Task
  dependeDe : List (Nat × Nat)
  taskDeps : List TaskDep
  transitions : List TransitionRec
  notifications : List Notification
  states : List WorkflowState
  departments : List Department
  users : List UserRec
  nextTaskId : Nat
deriving DecidableEq, Repr

/-- Look a task up by primary key. -/
def taskById (ts : List Task) (i : Nat) : Option Task :=
  ts.find? (fun t => t.id == i)

/-- The ids a task depends on, read from the `depende_de` join table. -/
def depsOfId (dd : List (Nat × Nat)) (i : Nat) : List Nat :=
  (dd.filter (fun p => p.1 == i)).map (fun p => p.2)

/-- The direct dependencies of a task (`task.depende_de.all()`). -/
def directDeps (s : WFState) (t : Task) : List Task :=
  s.tasks.filter (fun d => s.dependeDe.any (fun p => p.1 == t.id && p.2 == d.id))

/-- `Task.can_be_started` (`workflow/models.py`): true iff no direct
dependency has status `pendiente` or `en_progreso`. -/
def canBeStarted (s : WFState) (t : Task) : Bool :=
  ! (directDeps s t).any (fun d => d.estado == .pendiente || d.estado == .en_progreso)

/-- `Task.mark_as_completed` (`workflow/models.py`). -/
def markAsCompleted (now usuario : Nat) (resultado : String) (t : Task) : Task :=
  { t with estado := .completada, fecha_completacion := some now,
           resultado := resultado, usuario_asignado := some usuario }

/-- Check whether a character list starts with the pattern. -/
def prefMatch : List Char → List Char → Bool
  | [], _ => true
  | _ :: _, [] => false
  | p :: ps, c :: cs => p == c && prefMatch ps cs

/-- Check whether a character list contains the pattern as a contiguous
run, Python's `pat in s`. -/
def subMatch : List Char → List Char → Bool
  | pat, [] => pat.isEmpty
  | pat, c :: cs => prefMatch pat (c :: cs) || subMatch pat cs

/-- Substring containment on strings. -/
def containsSub (s pat : String) : Bool :=
  subMatch pat.data s.data

/-- Python's `str.lower`, modelled as per-character lowering (the state
names compared by the engine are cased in ASCII only). -/
def lowerStr (s : String) : String :=
  ⟨s.data.map Char.toLower⟩

/-- The recursive helper `check_dependencies` of
`_would_create_circular_dependency` (`workflow/views.py`): a depth-first
walk over the `depende_de` join table from `current`, returning `true` on
reaching `targetId` or on revisiting a node, threading the shared
`visited` set. Recursion depth is bounded by the number of distinct ids
ever added to `visited` (each nested call adds a fresh one), which is at
most `dd.length + 1`, so callers pass fuel above that bound and the
fuel-exhausted branch is unreachable. -/
def checkCircular (dd : List (Nat × Nat)) (targetId : Nat) :
    Nat → Nat → List Nat → Bool × List Nat
  | 0, _, visited => (true, visited)
  | fuel+1, current, visited =>
    if visited.contains current then (true, visited)
    else
      (depsOfId dd current).foldl
        (fun acc d =>
          if acc.1 then acc
          else if d == targetId then (true, acc.2)
          else checkCircular dd targetId fuel d acc.2)
        (false, current :: visited)

/-- `TaskViewSet._would_create_circular_dependency(task, dependency)`:
depth-first reachability of `taskId` from `depId` over `depende_de`. -/
def wouldCreateCircular (s : WFState) (taskId depId : Nat) : Bool :=
  (checkCircular s.dependeDe taskId (s.dependeDe.length + 2) depId []).1

/-- The failure cases of the `add_dependency` endpoint. -/
inductive DepError where
  | notFound
  | crossExpediente
  | circular
deriving DecidableEq, Repr

/-- `TaskViewSet.add_dependency` (`workflow/views.py`), after the
permission check: resolves both tasks, requires them to belong to the
same expediente, runs the circular-dependency check, and then
`get_or_create`s a `TaskDependency` row. Note that the inserted edge
goes only into the `TaskDependency` table; the `depende_de` join table
is not touched. -/
def addDependency (s : WFState) (taskId depId : Nat) (dtype : String) :
    Except DepError WFState :=
  match taskById s.tasks taskId with
  | none => .error .notFound
  | some task =>
    match taskById s.tasks depId with
    | none => .error .notFound
    | some depTask =>
      if task.expediente != depTask.expediente then .error .crossExpediente
      else if wouldCreateCircular s taskId depId then .error .circular
      else if s.taskDeps.any (fun r => r.task == taskId && r.depends_on == depId) then .ok s
      else .ok { s with taskDeps := s.taskDeps ++ [⟨taskId, depId, dtype⟩] }

/-- The write part of a transition request, the fields
`WorkflowTransitionSerializer` accepts as input. -/
structure TransitionInput where
  hacia_estado : WorkflowState
  hacia_departamento : Option Department
  usuario : Nat
  comentarios : String
  motivo_rechazo : String
deriving DecidableEq, Repr

/-- The failure cases of `WorkflowTransitionSerializer.validate`. -/
inductive TransError where
  | sameState
  | sameDepartment
  | missingRejectReason
deriving DecidableEq, Repr

/-- `WorkflowTransitionSerializer.validate` (`workflow/serializers.py`):
rejects a transition to the current state, a non-final transition into
the current department, and a transition to the rejection state without
a rejection reason. -/
def validateTransition (e : Expediente) (i : TransitionInput) : Option TransError :=
  if e.estado_workflow.id == i.hacia_estado.id then some .sameState
  else if !i.hacia_estado.is_final &&
      (match i.hacia_departamento with
       | some d => e.departamento_actual.id == d.id
       | none => false) then some .sameDepartment
  else if lowerStr i.hacia_estado.name == "rechazado" && i.motivo_rechazo == "" then
    some .missingRejectReason
  else none

/-- The status-derivation block of `WorkflowTransitionSerializer.create`:
the coarse status is derived from the destination state's lowered name,
and the completion timestamp is stamped on the `completado` branch. -/
def applyStatusUpdate (now : Nat) (hacia : WorkflowState) (e : Expediente) : Expediente :=
  let n := lowerStr hacia.name
  if n == "completado" then
    { e with estado_actual := .completado, fecha_completado := some now }
  else if n == "rechazado" then { e with estado_actual := .rechazado }
  else if n == "en apelación" then { e with estado_actual := .en_apelacion }
  else if containsSub n "revisión" then { e with estado_actual := .en_revision }
  else { e with estado_actual := .aprobado }

/-- `WorkflowTransitionSerializer.create` (`workflow/serializers.py`):
captures the from-state and from-department, appends the transition
record, moves the expediente's pointers, and derives the coarse
status. -/
def createTransition (now : Nat) (s : WFState) (i : TransitionInput) :
    WFState × TransitionRec :=
  let e := s.expediente
  let tr : TransitionRec :=
    { expediente := e.id
      desde_estado := some e.estado_workflow
      hacia_estado := i.hacia_estado
      desde_departamento := some e.departamento_actual
      hacia_departamento := i.hacia_departamento
      usuario := i.usuario
      comentarios := i.comentarios
      motivo_rechazo := i.motivo_rechazo }
  let e1 :=
    { e with estado_workflow := i.hacia_estado
             departamento_actual := i.hacia_departamento.getD e.departamento_actual }
  let e2 := applyStatusUpdate now i.hacia_estado e1
  ({ s with expediente := e2, transitions := s.transitions ++ [tr] }, tr)

/-- The serializer path of a transition: `is_valid()` followed by
`save()`, i.e. `validate` then `create`. -/
def proposeTransition (now : Nat) (s : WFState) (i : TransitionInput) :
    Except TransError (WFState × TransitionRec) :=
  match validateTransition s.expediente i with
  | some err => .error err
  | none => .ok (createTransition now s i)

/-- `ExpedienteViewSet._create_transition_notification`: one
`workflow_update` notification per active user of the destination
department. -/
def transitionNotifications (s : WFState) (tr : TransitionRec) : List Notification :=
  match tr.hacia_departamento with
  | none => []
  | some d =>
    (s.users.filter (fun u => u.department == d.id && u.is_active)).map
      (fun u => { user := u.id, ntype := "workflow_update" })

/-- `ExpedienteViewSet._auto_create_tasks_for_department`: for the three
hard-coded department codes, create one default review task with a due
date computed from the department's response-time budget (time is
abstracted, so the budget is added directly to `now`). -/
def autoCreateTask (now : Nat) (s : WFState) (dept : Option Department) : WFState :=
  match dept with
  | none => s
  | some d =>
    if d.code == "JURIDICO" || d.code == "TECNICO" || d.code == "FINANCIERO" then
      { s with
        tasks := s.tasks ++
          [{ id := s.nextTaskId
             expediente := s.expediente.id
             departamento := d
             usuario_asignado := none
             titulo := "Revisión en " ++ d.name
             descripcion := "Revisar expediente en departamento de " ++ d.name
             tipo := "revision"
             prioridad := "alta"
             estado := .pendiente
             fecha_vencimiento := some (now + d.response_time_hours)
             fecha_completacion := none
             resultado := "" }]
        nextTaskId := s.nextTaskId + 1 }
    else s

/-- `ExpedienteViewSet.transition` (`workflow/views.py`), after the
permission check: run the serializer, and on success record the
transition notifications and auto-create the department task. A
validation failure leaves the state unchanged. -/
def transitionOp (now : Nat) (s : WFState) (i : TransitionInput) : WFState :=
  match proposeTransition now s i with
  | .error _ => s
  | .ok (s1, tr) =>
    let s2 := { s1 with notifications := s1.notifications ++ transitionNotifications s1 tr }
    autoCreateTask now s2 tr.hacia_departamento

/-- The tasks that directly depend on the given task
(`completed_task.dependientes.all()`). -/
def dependentsOf (s : WFState) (taskId : Nat) : List Task :=
  s.tasks.filter (fun d => s.dependeDe.any (fun p => p.1 == d.id && p.2 == taskId))

/-- `TaskViewSet._check_dependent_tasks`: for every direct dependent
that can now be started, is still `pendiente`, and has an assignee,
record a `task_assigned` ("now startable") notification. -/
def dependentNotifications (s : WFState) (taskId : Nat) : List Notification :=
  (dependentsOf s taskId).filterMap (fun d =>
    if canBeStarted s d && d.estado == .pendiente then
      match d.usuario_asignado with
      | some u => some { user := u, ntype := "task_assigned" }
      | none => none
    else none)

/-- The count of the expediente's tasks with status `pendiente` or
`en_progreso`. -/
def pendingCount (s : WFState) : Nat :=
  (s.tasks.filter (fun t => t.expediente == s.expediente.id &&
    (t.estado == .pendiente || t.estado == .en_progreso))).length

/-- Insert into a list sorted ascending by the given key (the building
block used to model the ORM's `order_by`). -/
def insertKeyed (key : α → Nat) (x : α) : List α → List α
  | [] => [x]
  | b :: bs => if key x < key b then x :: b :: bs else b :: insertKeyed key x bs

/-- Sort a list ascending by the given key (`order_by`). -/
def sortKeyed (key : α → Nat) (l : List α) : List α :=
  l.foldr (insertKeyed key) []

/-- `WorkflowState.objects.filter(order__gt=o).order_by('order').first()`:
the state with the next-greater order. -/
def nextStateAfter (states : List WorkflowState) (o : Nat) : Option WorkflowState :=
  (sortKeyed (fun st => st.order) (states.filter (fun st => o < st.order))).head?

/-- The automatic transition record inserted by
`_check_expediente_completion`: same department on both sides, the case
creator as actor, and a fixed comment. -/
def autoTransitionRec (s : WFState) (next : WorkflowState) : TransitionRec :=
  { expediente := s.expediente.id
    desde_estado := some s.expediente.estado_workflow
    hacia_estado := next
    desde_departamento := some s.expediente.departamento_actual
    hacia_departamento := some s.expediente.departamento_actual
    usuario := s.expediente.creado_por
    comentarios := "Transición automática: Todas las tareas completadas"
    motivo_rechazo := "" }

/-- `TaskViewSet._check_expediente_completion` (`workflow/views.py`):
when the expediente has no pending or in-progress task left and its
current workflow state is non-final and a next-ordered state exists,
insert one automatic transition record directly and move the
`estado_workflow` pointer. The coarse status and completion timestamp
are not touched on this path. -/
def checkExpedienteCompletion (s : WFState) : WFState :=
  if pendingCount s == 0 then
    if !s.expediente.estado_workflow.is_final then
      match nextStateAfter s.states s.expediente.estado_workflow.order with
      | some next =>
        { s with transitions := s.transitions ++ [autoTransitionRec s next],
                 expediente := { s.expediente with estado_workflow := next } }
      | none => s
    else s
  else s

/-- The `task.mark_as_completed(...)` step of `TaskViewSet.complete`:
save the completed task row. -/
def completeSave (now : Nat) (s : WFState) (taskId userId : Nat) (resultado : String) :
    WFState :=
  { s with tasks := s.tasks.map (fun u : Task =>
      if u.id == taskId then markAsCompleted now userId resultado u else u) }

/-- The `_check_dependent_tasks` step of `TaskViewSet.complete`: record
the "now startable" notifications. -/
def completeNotify (s : WFState) (taskId : Nat) : WFState :=
  { s with notifications := s.notifications ++ dependentNotifications s taskId }

/-- `TaskViewSet.complete` (`workflow/views.py`), after the permission
check: mark the task completed, record the "now startable" notifications
for its dependents, and run the expediente-completion check (which in
this single-expediente embedding applies when the task belongs to the
modelled expediente). -/
def completeTask (now : Nat) (s : WFState) (taskId userId : Nat) (resultado : String) :
    Except Unit WFState :=
  match taskById s.tasks taskId with
  | none => .error ()
  | some t =>
    .ok (if t.expediente == s.expediente.id then
          checkExpedienteCompletion
            (completeNotify (completeSave now s taskId userId resultado) taskId)
        else completeNotify (completeSave now s taskId userId resultado) taskId)

/-- The failure cases of the `assign` endpoint. -/
inductive AssignError where
  | taskNotFound
  | userNotFound
  | departmentMismatch
deriving DecidableEq, Repr

/-- `TaskViewSet.assign` (`workflow/views.py`), after the permission
check: resolve an active user, require the user's department to match
the task's, set the assignment, and record the assignment
notification. -/
def assignTask (s : WFState) (taskId userId : Nat) : Except AssignError WFState :=
  match taskById s.tasks taskId with
  | none => .error .taskNotFound
  | some task =>
    match s.users.find? (fun u => u.id == userId && u.is_active) with
    | none => .error .userNotFound
    | some u =>
      if u.department != task.departamento.id then .error .departmentMismatch
      else
        let s1 := { s with tasks := s.tasks.map (fun t : Task =>
            if t.id == taskId then { t with usuario_asignado := some userId } else t) }
        .ok { s1 with notifications := s1.notifications ++
            [{ user := userId, ntype := "task_assigned" }] }

/-- The fields a generic task update may carry (the subset of
`TaskSerializer` input relevant to status changes). -/
structure TaskUpdate where
  estado : Option TaskStatus
  resultado : Option String
deriving DecidableEq, Repr

/-- The default result text of `TaskSerializer.update`. -/
def defaultAutoResult : String := "Tarea completada automáticamente"

/-- `TaskSerializer.update` (`workflow/serializers.py`) on one task:
when the update newly sets status `completada`, stamp the completion
timestamp and default the result text when the given one is missing or
falsy; when it sets `cancelada`, clear the assignment; then write the
provided fields. -/
def applySerUpdate (now : Nat) (t : Task) (upd : TaskUpdate) : Task :=
  let completing := upd.estado == some .completada && t.estado != .completada
  let resultado :=
    if completing then
      match upd.resultado with
      | some r => if r == "" then defaultAutoResult else r
      | none => defaultAutoResult
    else
      match upd.resultado with
      | some r => r
      | none => t.resultado
  { t with
    estado := upd.estado.getD t.estado
    fecha_completacion := if completing then some now else t.fecha_completacion
    resultado := resultado
    usuario_asignado := if upd.estado == some .cancelada then none
                        else t.usuario_asignado }

/-- The generic task-update endpoint (the `ModelViewSet` update routed
to `TaskSerializer.update`): it rewrites the one task and nothing
else — no notification, no expediente-completion check. -/
def updateTaskOp (now : Nat) (s : WFState) (taskId : Nat) (upd : TaskUpdate) :
    Except Unit WFState :=
  match taskById s.tasks taskId with
  | none => .error ()
  | some _ =>
    .ok { s with tasks := s.tasks.map (fun t : Task =>
        if t.id == taskId then applySerUpdate now t upd else t) }

/-- `ExpedienteViewSet._get_available_transitions`: empty when the
current workflow state is final, else the first three states with
strictly greater order, ascending. -/
def availableTransitions (s : WFState) : List WorkflowState :=
  if s.expediente.estado_workflow.is_final then []
  else
    (sortKeyed (fun st => st.order)
      (s.states.filter
        (fun st => s.expediente.estado_workflow.order < st.order))).take 3

/-- `ExpedienteViewSet._get_next_departments`: the first three active
departments with strictly greater `workflow_order`, ascending. The
current workflow state's finality is not consulted here. -/
def nextDepartmentsQ (s : WFState) : List Department :=
  (sortKeyed (fun d => d.workflow_order)
    (s.departments.filter
      (fun d => s.expediente.departamento_actual.workflow_order < d.workflow_order &&
        d.is_active))).take 3

/-- The externally triggered engine operations. -/
inductive Op where
  | transition (i : TransitionInput) (now : Nat)
  | complete (taskId userId : Nat) (resultado : String) (now : Nat)
  | update (taskId : Nat) (upd : TaskUpdate) (now : Nat)
  | assign (taskId userId : Nat)
  | addDep (taskId depId : Nat) (dtype : String)
deriving Repr

/-- Apply one operation; a failed call leaves the persisted state
unchanged (the endpoints validate before mutating, inside a
transaction). -/
def applyOp (s : WFState) : Op → WFState
  | .transition i now => transitionOp now s i
  | .complete taskId userId resultado now =>
    match completeTask now s taskId userId resultado with
    | .ok s1 => s1
    | .error _ => s
  | .update taskId upd now =>
    match updateTaskOp now s taskId upd with
    | .ok s1 => s1
    | .error _ => s
  | .assign taskId userId =>
    match assignTask s taskId userId with
    | .ok s1 => s1
    | .error _ => s
  | .addDep taskId depId dtype =>
    match addDependency s taskId depId dtype with
    | .ok s1 => s1
    | .error _ => s

/-- Apply a sequence of operations. -/
def runOps (s : WFState) (ops : List Op) : WFState :=
  ops.foldl applyOp s

/-- The completion-timestamp invariant direction that the code does
maintain: whenever the coarse status is `completado`, the completion
timestamp is set. -/
def completionInv (s : WFState) : Prop :=
  s.expediente.estado_actual = .completado → s.expediente.fecha_completado.isSome

/-! ## Concrete fixtures -/

/-- A first department, lowest in the pipeline. -/
def dAdm : Department :=
  { id := 1, code := "DGA", name := "Administración", workflow_order := 1,
    is_active := true, response_time_hours := 48 }

/-- A second, later department. -/
def dJur : Department :=
  { id := 2, code := "JURIDICO", name := "Jurídico", workflow_order := 2,
    is_active := true, response_time_hours := 72 }

/-- A non-final review state. -/
def stRev : WorkflowState :=
  { id := 1, name := "En Revisión", order := 1, is_final := false }

/-- A final state whose name drives the `completado` status branch. -/
def stComp : WorkflowState :=
  { id := 2, name := "Completado", order := 2, is_final := true }

/-- A later non-final state with a neutral name. -/
def stEval : WorkflowState :=
  { id := 3, name := "Evaluación Técnica", order := 3, is_final := false }

/-- A non-final state whose name drives the rejection branch. -/
def stRech : WorkflowState :=
  { id := 4, name := "Rechazado", order := 4, is_final := false }

/-- A freshly created expediente in the review state. -/
def baseExp : Expediente :=
  { id := 10, numero_expediente := "EXP-001", estado_actual := .iniciado,
    departamento_actual := dAdm, estado_workflow := stRev, creado_por := 100,
    fecha_completado := none }

/-- A task of the base expediente with the given id and status. -/
def mkTask (i : Nat) (st : TaskStatus) : Task :=
  { id := i, expediente := 10, departamento := dAdm, usuario_asignado := some 100,
    titulo := "T", descripcion := "", tipo := "revision", prioridad := "media",
    estado := st, fecha_vencimiento := none, fecha_completacion := none,
    resultado := "" }

/-- A base persisted state with the given tasks and `depende_de` edges. -/
def mkState (tasks : List Task) (dd : List (Nat × Nat)) : WFState :=
  { expediente := baseExp, tasks := tasks, dependeDe := dd, taskDeps := [],
    transitions := [], notifications := [],
    states := [stRev, stComp, stEval, stRech], departments := [dAdm, dJur],
    users := [{ id := 100, department := 1, is_active := true }], nextTaskId := 50 }

/-! ## C1: `add_dependency(A,B)` then `add_dependency(B,A)` -/

/-- Two fresh tasks of one expediente, no edges anywhere. -/
def c1s0 : WFState := mkState [mkTask 1 .pendiente, mkTask 2 .pendiente] []

/-- The state after `add_dependency(A, B)`. -/
def c1s1 : WFState := applyOp c1s0 (.addDep 1 2 "finish_to_start")

/-- The state after the subsequent `add_dependency(B, A)`. -/
def c1s2 : WFState := applyOp c1s1 (.addDep 2 1 "finish_to_start")

/-- C1. Claimed: on two tasks with no prior dependencies,
`add_dependency(A, B)` followed by `add_dependency(B, A)` fails on the
second call with `CircularDependency`, storing no B-depends-on-A edge.
The code instead accepts both calls and stores both `TaskDependency`
rows: the cycle check walks the `depende_de` many-to-many relation,
which `add_dependency` never writes, so the A→B edge of the first call
is invisible to the second call's check. -/
theorem c1_bidirectional_add_dependency_accepted :
    addDependency c1s0 1 2 "finish_to_start" = .ok c1s1 ∧
    addDependency c1s1 2 1 "finish_to_start" = .ok c1s2 ∧
    (c1s2.taskDeps.any fun r => r.task == 2 && r.depends_on == 1) = true ∧
    (c1s2.taskDeps.any fun r => r.task == 1 && r.depends_on == 2) = true := by
  decide

/-! ## C2: the `TaskDependency` table versus the `depende_de` relation -/

/-- Two fresh tasks of one expediente, no edges anywhere. -/
def c2s0 : WFState := mkState [mkTask 3 .pendiente, mkTask 4 .pendiente] []

/-- The state after `add_dependency(3, 4)`. -/
def c2s1 : WFState := applyOp c2s0 (.addDep 3 4 "finish_to_start")

/-- C2, counterexample. Claimed: a `TaskDependency` row (task=T,
depends_on=D) exists iff D is among T's depends-on set. After a single
successful `add_dependency(3, 4)` the row exists but the `depende_de`
relation still lacks the pair, so the equivalence fails. -/
theorem c2_taskdep_row_without_depende_de_edge :
    addDependency c2s0 3 4 "finish_to_start" = .ok c2s1 ∧
    (c2s1.taskDeps.any fun r => r.task == 3 && r.depends_on == 4) = true ∧
    (c2s1.dependeDe.any fun p => p.1 == 3 && p.2 == 4) = false := by
  decide

/-- `canBeStarted` reads only the task table and the `depende_de`
relation. -/
theorem canBeStarted_congr (s s' : WFState) (h1 : s'.tasks = s.tasks)
    (h2 : s'.dependeDe = s.dependeDe) (t : Task) :
    canBeStarted s' t = canBeStarted s t := by
  simp [canBeStarted, directDeps, h1, h2]

/-- C2, amended. A successful `add_dependency` inserts (or finds) the
`TaskDependency` row but leaves the task table and the `depende_de`
relation unchanged, so the cycle check and `can_be_started` — both of
which read only `depende_de` — do not observe edges inserted through
`add_dependency`. -/
theorem c2_add_dependency_row_only (s : WFState) (a b : Nat) (ty : String)
    (s' : WFState) (h : addDependency s a b ty = .ok s') :
    s'.dependeDe = s.dependeDe ∧
    s'.tasks = s.tasks ∧
    (s'.taskDeps.any fun r => r.task == a && r.depends_on == b) = true ∧
    (∀ t : Task, canBeStarted s' t = canBeStarted s t) ∧
    (∀ x y : Nat, wouldCreateCircular s' x y = wouldCreateCircular s x y) := by
  unfold addDependency at h
  split at h
  · exact absurd h (by simp)
  · split at h
    · exact absurd h (by simp)
    · split at h
      · exact absurd h (by simp)
      · split at h
        · exact absurd h (by simp)
        · split at h
          · rename_i hExists
            cases h
            refine ⟨rfl, rfl, hExists, fun t => rfl, fun x y => rfl⟩
          · cases h
            refine ⟨rfl, rfl, ?_, fun t => rfl, fun x y => rfl⟩
            simp [List.any_append]

/-- Witness for C2's amended theorem at the concrete fixture. -/
theorem c2_add_dependency_row_only_witness :
    c2s1.dependeDe = c2s0.dependeDe ∧
    (c2s1.taskDeps.any fun r => r.task == 3 && r.depends_on == 4) = true := by
  have h := c2_add_dependency_row_only c2s0 3 4 "finish_to_start" c2s1 (by decide)
  exact ⟨h.1, h.2.2.1⟩

/-! ## C7: diamond dependency and the transitive cycle check -/

/-- Four fresh tasks A=1, B=2, C=3, D=4 of one expediente. -/
def c7s0 : WFState :=
  mkState [mkTask 1 .pendiente, mkTask 2 .pendiente,
           mkTask 3 .pendiente, mkTask 4 .pendiente] []

/-- After `add_dependency(D, B)`. -/
def c7s1 : WFState := applyOp c7s0 (.addDep 4 2 "finish_to_start")

/-- After `add_dependency(D, C)`. -/
def c7s2 : WFState := applyOp c7s1 (.addDep 4 3 "finish_to_start")

/-- After `add_dependency(B, A)`. -/
def c7s3 : WFState := applyOp c7s2 (.addDep 2 1 "finish_to_start")

/-- After `add_dependency(C, A)`. -/
def c7s4 : WFState := applyOp c7s3 (.addDep 3 1 "finish_to_start")

/-- After the final `add_dependency(A, D)`. -/
def c7s5 : WFState := applyOp c7s4 (.addDep 1 4 "finish_to_start")

/-- C7. Claimed: building the diamond (D→B, D→C, B→A, C→A) succeeds,
and the subsequent `add_dependency(A, D)` fails with
`CircularDependency` through the transitive closure. The code accepts
the diamond — and then also accepts `add_dependency(A, D)`, storing the
cycle: the reachability check runs over the `depende_de` many-to-many
relation, which stays empty because `add_dependency` writes only
`TaskDependency` rows. -/
theorem c7_diamond_then_cycle_accepted :
    addDependency c7s0 4 2 "finish_to_start" = .ok c7s1 ∧
    addDependency c7s1 4 3 "finish_to_start" = .ok c7s2 ∧
    addDependency c7s2 2 1 "finish_to_start" = .ok c7s3 ∧
    addDependency c7s3 3 1 "finish_to_start" = .ok c7s4 ∧
    addDependency c7s4 1 4 "finish_to_start" = .ok c7s5 ∧
    (c7s5.taskDeps.any fun r => r.task == 1 && r.depends_on == 4) = true := by
  decide

/-! ## C6: readiness computation -/

/-- A task whose single direct dependency is cancelled. -/
def c6s : WFState := mkState [mkTask 1 .pendiente, mkTask 2 .cancelada] [(1, 2)]

/-- C6, counterexample. Claimed: `can_start(task)` is true exactly when
all direct dependencies have status completed. With a single cancelled
dependency, `can_be_started` returns true although that dependency is
not completed. -/
theorem c6_cancelled_dep_allows_start :
    canBeStarted c6s (mkTask 1 .pendiente) = true ∧
    ¬ (∀ d ∈ directDeps c6s (mkTask 1 .pendiente), d.estado = .completada) := by
  decide

/-- C6, amended. `can_be_started` is true exactly when no direct
dependency has status `pendiente` or `en_progreso`; a cancelled or
blocked dependency does not prevent starting. -/
theorem c6_can_start_iff_no_pending_dep (s : WFState) (t : Task) :
    canBeStarted s t = true ↔
      ∀ d ∈ directDeps s t, d.estado ≠ .pendiente ∧ d.estado ≠ .en_progreso := by
  simp only [canBeStarted, Bool.not_eq_true', List.any_eq_false, Bool.or_eq_true,
    beq_iff_eq, not_or]

/-- Witness for C6's amended theorem at the concrete fixture. -/
theorem c6_can_start_iff_no_pending_dep_witness :
    canBeStarted c6s (mkTask 1 .pendiente) = true :=
  (c6_can_start_iff_no_pending_dep c6s (mkTask 1 .pendiente)).mpr (by decide)

/-! ## C3: effects of a successful transition -/

/-- C3. For every successful serializer transition: the record captures
the from-state and from-department read at call time, the expediente's
pointers move to the destination state (and department when provided),
the record is appended, and the coarse status follows the fixed mapping
on the destination state's lowered name, stamping the completion
timestamp on the `completado` branch. -/
theorem c3_transition_effects (now : Nat) (s : WFState) (i : TransitionInput)
    (s' : WFState) (tr : TransitionRec)
    (h : proposeTransition now s i = .ok (s', tr)) :
    tr.desde_estado = some s.expediente.estado_workflow ∧
    tr.desde_departamento = some s.expediente.departamento_actual ∧
    tr.hacia_estado = i.hacia_estado ∧
    s'.expediente.estado_workflow = i.hacia_estado ∧
    (∀ d : Department, i.hacia_departamento = some d →
      s'.expediente.departamento_actual = d) ∧
    s'.transitions = s.transitions ++ [tr] ∧
    (lowerStr i.hacia_estado.name = "completado" →
      s'.expediente.estado_actual = .completado ∧
      s'.expediente.fecha_completado = some now) ∧
    (lowerStr i.hacia_estado.name = "rechazado" →
      s'.expediente.estado_actual = .rechazado) ∧
    (lowerStr i.hacia_estado.name = "en apelación" →
      s'.expediente.estado_actual = .en_apelacion) ∧
    (lowerStr i.hacia_estado.name ≠ "completado" →
      lowerStr i.hacia_estado.name ≠ "rechazado" →
      lowerStr i.hacia_estado.name ≠ "en apelación" →
      (containsSub (lowerStr i.hacia_estado.name) "revisión" = true →
        s'.expediente.estado_actual = .en_revision) ∧
      (containsSub (lowerStr i.hacia_estado.name) "revisión" = false →
        s'.expediente.estado_actual = .aprobado)) := by
  unfold proposeTransition at h
  split at h
  · exact absurd h (by simp)
  · rw [Except.ok.injEq] at h
    have hs : s' = (createTransition now s i).1 := by rw [h]
    have ht : tr = (createTransition now s i).2 := by rw [h]
    subst hs; subst ht
    refine ⟨rfl, rfl, rfl, ?_, ?_, rfl, ?_, ?_, ?_, ?_⟩
    · simp only [createTransition, applyStatusUpdate]
      repeat' split
      all_goals rfl
    · intro d hd
      simp only [createTransition, applyStatusUpdate]
      repeat' split
      all_goals simp [hd]
    · intro hname
      have hb : (lowerStr i.hacia_estado.name == "completado") = true :=
        beq_iff_eq.mpr hname
      simp only [createTransition, applyStatusUpdate, hb]
      exact ⟨rfl, rfl⟩
    · intro hname
      have hb1 : (lowerStr i.hacia_estado.name == "completado") = false :=
        beq_eq_false_iff_ne.mpr (by simp [hname])
      have hb2 : (lowerStr i.hacia_estado.name == "rechazado") = true :=
        beq_iff_eq.mpr hname
      simp only [createTransition, applyStatusUpdate, hb1, hb2]
      rfl
    · intro hname
      have hb1 : (lowerStr i.hacia_estado.name == "completado") = false :=
        beq_eq_false_iff_ne.mpr (by simp [hname])
      have hb2 : (lowerStr i.hacia_estado.name == "rechazado") = false :=
        beq_eq_false_iff_ne.mpr (by simp [hname])
      have hb3 : (lowerStr i.hacia_estado.name == "en apelación") = true :=
        beq_iff_eq.mpr hname
      simp only [createTransition, applyStatusUpdate, hb1, hb2, hb3]
      rfl
    · intro h1 h2 h3
      have hb1 : (lowerStr i.hacia_estado.name == "completado") = false :=
        beq_eq_false_iff_ne.mpr h1
      have hb2 : (lowerStr i.hacia_estado.name == "rechazado") = false :=
        beq_eq_false_iff_ne.mpr h2
      have hb3 : (lowerStr i.hacia_estado.name == "en apelación") = false :=
        beq_eq_false_iff_ne.mpr h3
      constructor
      · intro hsub
        simp only [createTransition, applyStatusUpdate, hb1, hb2, hb3, hsub]
        rfl
      · intro hsub
        simp only [createTransition, applyStatusUpdate, hb1, hb2, hb3, hsub]
        rfl

/-- A concrete transition input to the rejection state with a reason. -/
def c3wIn : TransitionInput :=
  { hacia_estado := stRech, hacia_departamento := some dJur, usuario := 100,
    comentarios := "", motivo_rechazo := "razón" }

/-- The result of the concrete C3 transition. -/
def c3wPair : WFState × TransitionRec := createTransition 5 (mkState [] []) c3wIn

/-- Witness for C3 at a concrete rejection-state transition. -/
theorem c3_transition_effects_witness :
    proposeTransition 5 (mkState [] []) c3wIn = .ok (c3wPair.1, c3wPair.2) ∧
    c3wPair.2.desde_estado = some stRev ∧
    c3wPair.1.expediente.estado_workflow = stRech ∧
    c3wPair.1.expediente.estado_actual = .rechazado := by
  have h := c3_transition_effects 5 (mkState [] []) c3wIn c3wPair.1 c3wPair.2
    (by decide)
  exact ⟨by decide, h.1, h.2.2.2.1, h.2.2.2.2.2.2.2.1 (by decide)⟩

/-! ## C4: rejection requires a reason -/

/-- C4. For a transition whose destination is the rejection state (and
which passes the state/department distinctness checks): with an empty
rejection reason the serializer fails validation and the endpoint leaves
the state unchanged; with a non-empty reason it succeeds, appends the
transition record, and sets the coarse status to `rechazado`. -/
theorem c4_rejection_reason_required (now : Nat) (s : WFState) (i : TransitionInput)
    (hname : lowerStr i.hacia_estado.name = "rechazado")
    (hstate : s.expediente.estado_workflow.id ≠ i.hacia_estado.id)
    (hdept : i.hacia_estado.is_final = true ∨
      ∀ d : Department, i.hacia_departamento = some d →
        s.expediente.departamento_actual.id ≠ d.id) :
    (i.motivo_rechazo = "" →
      proposeTransition now s i = .error .missingRejectReason ∧
      applyOp s (.transition i now) = s) ∧
    (i.motivo_rechazo ≠ "" →
      ∃ s' tr, proposeTransition now s i = .ok (s', tr) ∧
        s'.transitions = s.transitions ++ [tr] ∧
        s'.expediente.estado_actual = .rechazado) := by
  have hb1 : (s.expediente.estado_workflow.id == i.hacia_estado.id) = false :=
    beq_eq_false_iff_ne.mpr hstate
  have hb2 : (!i.hacia_estado.is_final &&
      (match i.hacia_departamento with
       | some d => s.expediente.departamento_actual.id == d.id
       | none => false)) = false := by
    rcases hdept with hfin | hall
    · simp [hfin]
    · rcases hd : i.hacia_departamento with _ | d
      · simp
      · simp [beq_eq_false_iff_ne.mpr (hall d hd)]
  have hb3 : (lowerStr i.hacia_estado.name == "rechazado") = true :=
    beq_iff_eq.mpr hname
  constructor
  · intro hmr
    have hval : validateTransition s.expediente i = some .missingRejectReason := by
      simp only [validateTransition, hb1, hb2, hb3, hmr]
      simp
    constructor
    · simp only [proposeTransition, hval]
    · simp only [applyOp, transitionOp, proposeTransition, hval]
  · intro hmr
    have hval : validateTransition s.expediente i = none := by
      have hb4 : (i.motivo_rechazo == "") = false := beq_eq_false_iff_ne.mpr hmr
      simp only [validateTransition, hb1, hb2, hb3, hb4]
      simp
    refine ⟨(createTransition now s i).1, (createTransition now s i).2, ?_, rfl, ?_⟩
    · simp only [proposeTransition, hval]
    · have hc : (lowerStr i.hacia_estado.name == "completado") = false :=
        beq_eq_false_iff_ne.mpr (by simp [hname])
      simp only [createTransition, applyStatusUpdate, hc, hb3]
      rfl

/-- Witness for C4 at a concrete transition to the `Rechazado` state. -/
theorem c4_rejection_reason_required_witness :
    (proposeTransition 5 (mkState [] [])
      { hacia_estado := stRech, hacia_departamento := some dJur, usuario := 100,
        comentarios := "", motivo_rechazo := "" } =
      .error .missingRejectReason) ∧
    ∃ s' tr,
      proposeTransition 5 (mkState [] [])
        { hacia_estado := stRech, hacia_departamento := some dJur, usuario := 100,
          comentarios := "", motivo_rechazo := "insuficiente" } =
        .ok (s', tr) ∧
      s'.expediente.estado_actual = .rechazado := by
  have h1 := c4_rejection_reason_required 5 (mkState [] [])
    { hacia_estado := stRech, hacia_departamento := some dJur, usuario := 100,
      comentarios := "", motivo_rechazo := "" }
    (by decide) (by decide) (.inr (by intro d hd; cases hd; decide))
  have h2 := c4_rejection_reason_required 5 (mkState [] [])
    { hacia_estado := stRech, hacia_departamento := some dJur, usuario := 100,
      comentarios := "", motivo_rechazo := "insuficiente" }
    (by decide) (by decide) (.inr (by intro d hd; cases hd; decide))
  refine ⟨(h1.1 rfl).1, ?_⟩
  obtain ⟨s', tr, hok, _, hest⟩ := h2.2 (by decide)
  exact ⟨s', tr, hok, hest⟩

/-! ## C8: bounded lookahead queries -/

/-- Membership in a keyed insertion. -/
theorem mem_insertKeyed {α : Type} {key : α → Nat} {x y : α} {l : List α} :
    y ∈ insertKeyed key x l ↔ y = x ∨ y ∈ l := by
  induction l with
  | nil => simp [insertKeyed]
  | cons b bs ih =>
    simp only [insertKeyed]
    split
    · simp [List.mem_cons]
    · rw [List.mem_cons, ih, List.mem_cons]
      tauto

/-- Membership is preserved by the keyed sort. -/
theorem mem_sortKeyed {α : Type} {key : α → Nat} {l : List α} {y : α} :
    y ∈ sortKeyed key l ↔ y ∈ l := by
  induction l with
  | nil => simp [sortKeyed]
  | cons b bs ih =>
    show y ∈ insertKeyed key b (sortKeyed key bs) ↔ _
    rw [mem_insertKeyed, ih, List.mem_cons]

/-- Keyed insertion preserves sortedness by the key. -/
theorem pairwise_insertKeyed {α : Type} {key : α → Nat} {x : α} {l : List α}
    (h : l.Pairwise (fun a b => key a ≤ key b)) :
    (insertKeyed key x l).Pairwise (fun a b => key a ≤ key b) := by
  induction l with
  | nil => simp [insertKeyed]
  | cons b bs ih =>
    rw [List.pairwise_cons] at h
    obtain ⟨hb, hbs⟩ := h
    simp only [insertKeyed]
    split
    · rename_i hlt
      rw [List.pairwise_cons]
      refine ⟨?_, List.pairwise_cons.mpr ⟨hb, hbs⟩⟩
      intro y hy
      rcases List.mem_cons.mp hy with rfl | hy'
      · exact Nat.le_of_lt hlt
      · exact Nat.le_trans (Nat.le_of_lt hlt) (hb y hy')
    · rename_i hnlt
      rw [List.pairwise_cons]
      refine ⟨?_, ih hbs⟩
      intro y hy
      rcases mem_insertKeyed.mp hy with rfl | hy'
      · exact Nat.le_of_not_lt hnlt
      · exact hb y hy'

/-- The keyed sort is sorted ascending by the key. -/
theorem pairwise_sortKeyed {α : Type} {key : α → Nat} (l : List α) :
    (sortKeyed key l).Pairwise (fun a b => key a ≤ key b) := by
  induction l with
  | nil => simp [sortKeyed]
  | cons b bs ih => exact pairwise_insertKeyed ih

/-- C8, amended. Both lookahead queries are pure bounded lookups:
`availableTransitions` is empty when the current state is final, and
each query returns at most three entries with strictly greater
order (respectively, active departments with strictly greater
`workflow_order`), sorted ascending. The department query, however, does
not consult the state's finality (see the counterexample). -/
theorem c8_bounded_lookahead (s : WFState) :
    (s.expediente.estado_workflow.is_final = true → availableTransitions s = []) ∧
    (availableTransitions s).length ≤ 3 ∧
    (∀ st ∈ availableTransitions s,
      s.expediente.estado_workflow.order < st.order) ∧
    (availableTransitions s).Pairwise (fun a b => a.order ≤ b.order) ∧
    (nextDepartmentsQ s).length ≤ 3 ∧
    (∀ d ∈ nextDepartmentsQ s,
      s.expediente.departamento_actual.workflow_order < d.workflow_order ∧
      d.is_active = true) ∧
    (nextDepartmentsQ s).Pairwise
      (fun a b => a.workflow_order ≤ b.workflow_order) := by
  refine ⟨?_, ?_, ?_, ?_, ?_, ?_, ?_⟩
  · intro h
    simp [availableTransitions, h]
  · unfold availableTransitions
    split
    · simp
    · rw [List.length_take]
      exact min_le_left _ _
  · intro st hst
    unfold availableTransitions at hst
    split at hst
    · simp at hst
    · have h1 := List.take_subset _ _ hst
      have h2 := mem_sortKeyed.mp h1
      have h3 := List.mem_filter.mp h2
      simpa using h3.2
  · unfold availableTransitions
    split
    · simp
    · exact List.Pairwise.sublist (List.take_sublist _ _) (pairwise_sortKeyed _)
  · unfold nextDepartmentsQ
    rw [List.length_take]
    exact min_le_left _ _
  · intro d hd
    unfold nextDepartmentsQ at hd
    have h1 := List.take_subset _ _ hd
    have h2 := mem_sortKeyed.mp h1
    have h3 := List.mem_filter.mp h2
    simpa using h3.2
  · exact List.Pairwise.sublist (List.take_sublist _ _) (pairwise_sortKeyed _)

/-- An expediente resting in a final state, with a later active
department still ahead in `workflow_order`. -/
def c8s : WFState :=
  { mkState [] [] with expediente := { baseExp with estado_workflow := stComp } }

/-- C8, counterexample. Claimed: when the case's current workflow state
is final, both queries return the empty list. The department query
ignores the state's finality: in a final state it still returns the
later department. -/
theorem c8_next_departments_ignores_final_state :
    c8s.expediente.estado_workflow.is_final = true ∧
    availableTransitions c8s = [] ∧
    nextDepartmentsQ c8s ≠ [] := by
  decide

/-- Witness for C8's amended theorem at the concrete final-state
fixture. -/
theorem c8_bounded_lookahead_witness :
    availableTransitions c8s = [] ∧ (nextDepartmentsQ c8s).length ≤ 3 :=
  ⟨(c8_bounded_lookahead c8s).1 (by decide),
   (c8_bounded_lookahead c8s).2.2.2.2.1⟩

/-! ## C9: the completion timestamp and the coarse status -/

/-- After the serializer's status derivation, a `completado` coarse
status always comes with a freshly stamped completion timestamp. -/
theorem applyStatusUpdate_inv (now : Nat) (hacia : WorkflowState) (e : Expediente) :
    (applyStatusUpdate now hacia e).estado_actual = .completado →
    ((applyStatusUpdate now hacia e).fecha_completado).isSome := by
  simp only [applyStatusUpdate]
  repeat' split
  all_goals intro h
  all_goals simp at h ⊢

/-- Auto task creation does not touch the expediente record. -/
theorem autoCreateTask_expediente (now : Nat) (s : WFState) (d : Option Department) :
    (autoCreateTask now s d).expediente = s.expediente := by
  unfold autoCreateTask
  repeat' split
  all_goals rfl

/-- The automatic completion advance does not touch the coarse status or
the completion timestamp. -/
theorem checkExpedienteCompletion_frame (s : WFState) :
    (checkExpedienteCompletion s).expediente.estado_actual =
      s.expediente.estado_actual ∧
    (checkExpedienteCompletion s).expediente.fecha_completado =
      s.expediente.fecha_completado := by
  unfold checkExpedienteCompletion
  repeat' split
  all_goals exact ⟨rfl, rfl⟩

/-- Every engine operation preserves the forward completion-timestamp
invariant. -/
theorem completionInv_applyOp (s : WFState) (op : Op) (h : completionInv s) :
    completionInv (applyOp s op) := by
  cases op with
  | transition i now =>
    show completionInv (transitionOp now s i)
    unfold transitionOp
    split
    · exact h
    · rename_i s1 tr heq
      unfold proposeTransition at heq
      split at heq
      · exact absurd heq (by simp)
      · rw [Except.ok.injEq] at heq
        have hs1 : s1 = (createTransition now s i).1 := by rw [heq]
        subst hs1
        unfold completionInv
        rw [autoCreateTask_expediente]
        exact applyStatusUpdate_inv now i.hacia_estado _
  | complete taskId userId resultado now =>
    show completionInv (match completeTask now s taskId userId resultado with
      | .ok s1 => s1 | .error _ => s)
    split
    · rename_i s1 heq
      unfold completeTask at heq
      split at heq
      · exact absurd heq (by simp)
      · rw [Except.ok.injEq] at heq
        subst heq
        unfold completionInv
        split
        · rw [(checkExpedienteCompletion_frame _).1,
              (checkExpedienteCompletion_frame _).2]
          exact h
        · exact h
    · exact h
  | update taskId upd now =>
    show completionInv (match updateTaskOp now s taskId upd with
      | .ok s1 => s1 | .error _ => s)
    split
    · rename_i s1 heq
      unfold updateTaskOp at heq
      split at heq
      · exact absurd heq (by simp)
      · rw [Except.ok.injEq] at heq
        subst heq
        exact h
    · exact h
  | assign taskId userId =>
    show completionInv (match assignTask s taskId userId with
      | .ok s1 => s1 | .error _ => s)
    split
    · rename_i s1 heq
      unfold assignTask at heq
      split at heq
      · exact absurd heq (by simp)
      · split at heq
        · exact absurd heq (by simp)
        · split at heq
          · exact absurd heq (by simp)
          · rw [Except.ok.injEq] at heq
            subst heq
            exact h
    · exact h
  | addDep taskId depId dtype =>
    show completionInv (match addDependency s taskId depId dtype with
      | .ok s1 => s1 | .error _ => s)
    split
    · rename_i s1 heq
      unfold addDependency at heq
      split at heq
      · exact absurd heq (by simp)
      · split at heq
        · exact absurd heq (by simp)
        · split at heq
          · exact absurd heq (by simp)
          · split at heq
            · exact absurd heq (by simp)
            · split at heq
              · rw [Except.ok.injEq] at heq
                subst heq
                exact h
              · rw [Except.ok.injEq] at heq
                subst heq
                exact h
    · exact h

/-- C9, amended. One direction of the claimed invariant holds: along
every sequence of engine operations, a `completado` coarse status always
comes with a set completion timestamp. The converse fails (see the
counterexample): transitions away from the completed status do not clear
the timestamp. -/
theorem c9_completado_implies_timestamp (s : WFState) (ops : List Op)
    (h : completionInv s) : completionInv (runOps s ops) := by
  induction ops generalizing s with
  | nil => exact h
  | cons op rest ih => exact ih (applyOp s op) (completionInv_applyOp s op h)

/-- The transition into the `Completado` state. -/
def c9iComp : TransitionInput :=
  { hacia_estado := stComp, hacia_departamento := some dAdm, usuario := 100,
    comentarios := "", motivo_rechazo := "" }

/-- The follow-up transition out of the `Completado` state. -/
def c9iEval : TransitionInput :=
  { hacia_estado := stEval, hacia_departamento := some dJur, usuario := 100,
    comentarios := "", motivo_rechazo := "" }

/-- A fresh expediente with no tasks. -/
def c9s : WFState := mkState [] []

/-- C9, counterexample. Claimed: the completion timestamp is set iff the
coarse status is `completado`. After completing the case and then
transitioning onward, the status is `aprobado` while the timestamp is
still set: no operation clears it. -/
theorem c9_timestamp_survives_leaving_completado :
    c9s.expediente.fecha_completado = none ∧
    (runOps c9s [.transition c9iComp 5]).expediente.estado_actual = .completado ∧
    (runOps c9s [.transition c9iComp 5, .transition c9iEval 6]).expediente.estado_actual =
      .aprobado ∧
    (runOps c9s [.transition c9iComp 5, .transition c9iEval 6]).expediente.fecha_completado =
      some 5 := by
  decide

/-- Witness for C9's amended theorem along a concrete operation
sequence. -/
theorem c9_completado_implies_timestamp_witness :
    completionInv (runOps c9s [.transition c9iComp 5, .transition c9iEval 6]) :=
  c9_completado_implies_timestamp c9s [.transition c9iComp 5, .transition c9iEval 6]
    (fun hctr => absurd hctr (by decide))

/-! ## C5: automatic advance on completing the last task -/

/-- When no task of the expediente is pending or in progress, the
pending count is zero. -/
theorem pendingCount_eq_zero (s : WFState)
    (h : ∀ u ∈ s.tasks, u.expediente = s.expediente.id →
      u.estado ≠ .pendiente ∧ u.estado ≠ .en_progreso) :
    pendingCount s = 0 := by
  unfold pendingCount
  rw [List.length_eq_zero, List.filter_eq_nil_iff]
  intro u hu
  by_cases hexp : u.expediente = s.expediente.id
  · have hne := h u hu hexp
    simp [hne.1, hne.2]
  · simp [beq_eq_false_iff_ne.mpr hexp]

/-- When the pending count is zero, the state non-final, and a
next-ordered state exists, the completion check appends exactly the
automatic transition record and moves the workflow pointer. -/
theorem checkExpedienteCompletion_advances (s : WFState) (next : WorkflowState)
    (hpend : pendingCount s = 0)
    (hfin : s.expediente.estado_workflow.is_final = false)
    (hnext : nextStateAfter s.states s.expediente.estado_workflow.order = some next) :
    checkExpedienteCompletion s =
      { s with transitions := s.transitions ++ [autoTransitionRec s next],
               expediente := { s.expediente with estado_workflow := next } } := by
  unfold checkExpedienteCompletion
  rw [hpend, hfin, hnext]
  rfl

/-- C5, amended. Completing the last pending/in-progress task of the
expediente, while the current workflow state is non-final and a
next-ordered state exists, appends exactly one automatic transition
record (same department on both sides, actor = case creator, fixed
comment) and moves the `estado_workflow` pointer to that state — but it
does so by inserting the record directly, not through the serializer
path of `propose_transition`: the coarse status and the completion
timestamp are left untouched (no status derivation runs). -/
theorem c5_auto_advance (now : Nat) (s : WFState) (t : Task) (userId : Nat)
    (resultado : String) (next : WorkflowState)
    (hfind : taskById s.tasks t.id = some t)
    (hexp : t.expediente = s.expediente.id)
    (hothers : ∀ u ∈ s.tasks, u.id ≠ t.id → u.expediente = s.expediente.id →
      u.estado ≠ .pendiente ∧ u.estado ≠ .en_progreso)
    (hfin : s.expediente.estado_workflow.is_final = false)
    (hnext : nextStateAfter s.states s.expediente.estado_workflow.order = some next) :
    ∃ s', completeTask now s t.id userId resultado = .ok s' ∧
      s'.transitions = s.transitions ++ [autoTransitionRec s next] ∧
      s'.expediente.estado_workflow = next ∧
      s'.expediente.departamento_actual = s.expediente.departamento_actual ∧
      s'.expediente.estado_actual = s.expediente.estado_actual ∧
      s'.expediente.fecha_completado = s.expediente.fecha_completado := by
  have hpend : pendingCount
      (completeNotify (completeSave now s t.id userId resultado) t.id) = 0 := by
    apply pendingCount_eq_zero
    intro u hu huexp
    obtain ⟨v, hv, rfl⟩ := List.mem_map.mp hu
    by_cases hid : (v.id == t.id) = true
    · simp [hid, markAsCompleted]
    · simp only [hid, if_false, Bool.false_eq_true] at huexp ⊢
      exact hothers v hv (by simpa using hid) huexp
  have happlied := checkExpedienteCompletion_advances
    (completeNotify (completeSave now s t.id userId resultado) t.id) next hpend
    hfin hnext
  refine ⟨checkExpedienteCompletion
    (completeNotify (completeSave now s t.id userId resultado) t.id), ?_, ?_, ?_, ?_, ?_, ?_⟩
  · unfold completeTask
    rw [hfind]
    dsimp only
    rw [show (t.expediente == s.expediente.id) = true from beq_iff_eq.mpr hexp]
    rfl
  all_goals rw [happlied]
  all_goals rfl

/-- One last pending task on an in-review expediente whose next-ordered
state is named `Completado`. -/
def c5s : WFState :=
  { mkState [mkTask 1 .pendiente] [] with
    expediente := { baseExp with estado_actual := .en_revision } }

/-- The state after completing that last task. -/
def c5sAfter : WFState := applyOp c5s (.complete 1 100 "ok" 7)

/-- C5, counterexample. Claimed: the automatic transition goes through
the same path as `propose_transition`, with the same effects on the
derived status. Completing the last task advances the pointer to the
`Completado`-named state, yet the coarse status stays `en_revision` and
no completion timestamp is stamped — whereas the serializer's status
derivation applied to the same destination state would set `completado`
and stamp the timestamp. -/
theorem c5_auto_advance_skips_status_derivation :
    completeTask 7 c5s 1 100 "ok" = .ok c5sAfter ∧
    c5sAfter.expediente.estado_workflow = stComp ∧
    c5sAfter.transitions.length = 1 ∧
    c5sAfter.expediente.estado_actual = .en_revision ∧
    c5sAfter.expediente.fecha_completado = none ∧
    (applyStatusUpdate 7 stComp c5s.expediente).estado_actual = .completado ∧
    ((applyStatusUpdate 7 stComp c5s.expediente).fecha_completado).isSome = true := by
  decide

/-- Witness for C5's amended theorem at the concrete fixture. -/
theorem c5_auto_advance_witness :
    ∃ s', completeTask 7 c5s 1 100 "ok" = .ok s' ∧
      s'.transitions = c5s.transitions ++ [autoTransitionRec c5s stComp] := by
  obtain ⟨s', hok, htr, _⟩ := c5_auto_advance 7 c5s (mkTask 1 .pendiente) 100 "ok"
    stComp (by decide) (by decide) (by decide) (by decide) (by decide)
  exact ⟨s', hok, htr⟩

/-! ## C10: the generic task update triggers no completion cascade -/

/-- C10. Marking a task completed through the generic update path stamps
the completion timestamp and fills the default result text when none (or
a falsy one) was given — but rewrites only the task table: the
expediente (including its workflow pointer), the transition log, and the
recorded notifications are untouched, so neither the "now startable"
notification nor the automatic workflow advance of the dedicated
`complete` endpoint happens. -/
theorem c10_generic_update_no_cascade (now : Nat) (s : WFState) (taskId : Nat)
    (upd : TaskUpdate) (t : Task)
    (hfind : taskById s.tasks taskId = some t)
    (hnc : t.estado ≠ .completada)
    (hupd : upd.estado = some .completada) :
    ∃ s', updateTaskOp now s taskId upd = .ok s' ∧
      s'.tasks = s.tasks.map (fun u : Task =>
        if u.id == taskId then applySerUpdate now u upd else u) ∧
      (applySerUpdate now t upd).estado = .completada ∧
      (applySerUpdate now t upd).fecha_completacion = some now ∧
      ((upd.resultado = none ∨ upd.resultado = some "") →
        (applySerUpdate now t upd).resultado = defaultAutoResult) ∧
      (∀ r : String, upd.resultado = some r → r ≠ "" →
        (applySerUpdate now t upd).resultado = r) ∧
      s'.expediente = s.expediente ∧
      s'.transitions = s.transitions ∧
      s'.notifications = s.notifications := by
  have hcompleting : (upd.estado == some .completada && t.estado != .completada) = true := by
    rw [hupd]
    simp [bne_iff_ne, hnc]
  refine ⟨{ s with tasks := s.tasks.map (fun u : Task =>
      if u.id == taskId then applySerUpdate now u upd else u) },
    ?_, rfl, ?_, ?_, ?_, ?_, rfl, rfl, rfl⟩
  · unfold updateTaskOp
    rw [hfind]
  · simp only [applySerUpdate, hcompleting, hupd]
    rfl
  · simp only [applySerUpdate, hcompleting]
    rfl
  · intro hres
    rcases hres with hres | hres
    · simp only [applySerUpdate, hcompleting, hres]
      rfl
    · simp only [applySerUpdate, hcompleting, hres]
      rfl
  · intro r hres hr
    have hrb : (r == "") = false := beq_eq_false_iff_ne.mpr hr
    simp only [applySerUpdate, hcompleting, hres, hrb]
    rfl

/-- An in-progress task about to be completed through the generic
update path. -/
def c10s : WFState := mkState [mkTask 9 .en_progreso] []

/-- The generic update input setting the status to completed with no
result text. -/
def c10upd : TaskUpdate := { estado := some .completada, resultado := none }

/-- Witness for C10 at the concrete fixture. -/
theorem c10_generic_update_no_cascade_witness :
    ∃ s', updateTaskOp 7 c10s 9 c10upd = .ok s' ∧
      (applySerUpdate 7 (mkTask 9 .en_progreso) c10upd).fecha_completacion = some 7 ∧
      s'.expediente = c10s.expediente ∧
      s'.transitions = c10s.transitions ∧
      s'.notifications = c10s.notifications := by
  obtain ⟨s', hok, _, _, hfc, _, _, hexp, htr, hnot⟩ :=
    c10_generic_update_no_cascade 7 c10s 9 c10upd (mkTask 9 .en_progreso)
      (by decide) (by decide) (by decide)
  exact ⟨s', hok, hfc, hexp, htr, hnot⟩

end MopcWorkflow
